import Mathlib

/-!
# Campaign-Messaging-Backend: verification of the dispatch pipeline

A shallow embedding of the core of the Campaign-Messaging-Backend repository:
the data model (`internal/models`), the template renderer
(`internal/service/template_service.go`), the message processor with its
retry/failure state machine and campaign-completion aggregation
(`internal/worker/processor.go`), the send orchestrator
(`internal/service/campaign_service.go`, `SendCampaign`), the repository
operations they invoke (`internal/repository`), modelled as pure updates on an
in-memory store, and the consumer concurrency clamp
(`internal/queue/redis_client.go`, `Consume`).

Database rows become lists in a `Store`; SQL single-row updates become list
maps; the external delivery sender's outcome and injected repository failures
are passed as explicit parameters.
-/

namespace CampaignBackend

/-! ## Status and channel constants (internal/models) -/

/-- `MessageStatusPending` from `internal/models/outbound_message.go`. -/
def MessageStatusPending : String := "pending"

/-- `MessageStatusSent` from `internal/models/outbound_message.go`. -/
def MessageStatusSent : String := "sent"

/-- `MessageStatusFailed` from `internal/models/outbound_message.go`. -/
def MessageStatusFailed : String := "failed"

/-- `CampaignStatusDraft` from the campaign model (`src/unnamed/part_004`). -/
def CampaignStatusDraft : String := "draft"

/-- `CampaignStatusScheduled` from the campaign model. -/
def CampaignStatusScheduled : String := "scheduled"

/-- `CampaignStatusSending` from the campaign model. -/
def CampaignStatusSending : String := "sending"

/-- `CampaignStatusSent` from the campaign model. -/
def CampaignStatusSent : String := "sent"

/-- `CampaignStatusFailed` from the campaign model. -/
def CampaignStatusFailed : String := "failed"

/-- `ChannelSMS` from the campaign model (`src/unnamed/part_004`, line 19). -/
def ChannelSMS : String := "sms"

/-- `ChannelWhatsApp` from the campaign model (`src/unnamed/part_004`, line 20). -/
def ChannelWhatsApp : String := "whatsapp"

/-- `IsValidChannel` from `src/unnamed/part_004`, lines 77-80:
`channel == ChannelSMS || channel == ChannelWhatsApp`. -/
def IsValidChannel (channel : String) : Bool :=
  channel = ChannelSMS || channel = ChannelWhatsApp

/-- `IsValidCampaignStatus` from `src/unnamed/part_004`, lines 82-90. -/
def IsValidCampaignStatus (status : String) : Bool :=
  status = CampaignStatusDraft || status = CampaignStatusScheduled ||
  status = CampaignStatusSending || status = CampaignStatusSent ||
  status = CampaignStatusFailed

/-! ## Records (internal/models) -/

/-- `models.Customer` (timestamps omitted: never read by the core pipeline). -/
structure Customer where
  id : Int
  phone : String
  firstName : String
  lastName : String
  location : String
  preferredProduct : String
deriving Repr, DecidableEq

/-- `models.Campaign` (timestamps and scheduledAt omitted: never read by the
core dispatch pipeline). -/
structure Campaign where
  id : Int
  name : String
  channel : String
  status : String
  baseTemplate : String
deriving Repr, DecidableEq

/-- `Campaign.CanBeSent` from `src/unnamed/part_004`, lines 95-97. -/
def Campaign.CanBeSent (c : Campaign) : Bool :=
  c.status = CampaignStatusDraft || c.status = CampaignStatusScheduled

/-- `models.OutboundMessage` (timestamps omitted). -/
structure OutboundMessage where
  id : Int
  campaignID : Int
  customerID : Int
  status : String
  renderedContent : String
  lastError : Option String
  retryCount : Int
deriving Repr, DecidableEq

/-- `models.CampaignStats` (the counts computed by the campaign repository's
`GetWithStats` query: `COUNT(*) FILTER (WHERE status = ...)`). -/
structure CampaignStats where
  total : Nat
  pending : Nat
  sent : Nat
  failed : Nat
deriving Repr, DecidableEq

/-- The application error taxonomy of `internal/models/errors.go`
(`INVALID_INPUT`, `NOT_FOUND`, `CONFLICT`) plus wrapped internal errors
(plain `fmt.Errorf` values). -/
inductive AppErr where
  | invalidInput (msg : String)
  | notFound (msg : String)
  | conflict (msg : String)
  | internal (msg : String)
deriving Repr, DecidableEq

/-! ## Template service (internal/service/template_service.go) -/

/-- A character matched by the placeholder-name class `[a-z_]` of the
renderer's pattern `\x7b([a-z_]+)\x7d`. -/
def isPlaceholderChar (ch : Char) : Bool :=
  ('a' ≤ ch && ch ≤ 'z') || ch = '_'

/-- The `fieldMap` of `templateService.Render` (lines 37-43) together with its
lookup (lines 51-56): a known field name maps to the customer's attribute,
any other name to the empty string. -/
def fieldLookup (c : Customer) (name : String) : String :=
  if name = "first_name" then c.firstName
  else if name = "last_name" then c.lastName
  else if name = "location" then c.location
  else if name = "preferred_product" then c.preferredProduct
  else if name = "phone" then c.phone
  else ""

/-- The replacement pass of `templateService.Render`
(`ReplaceAllStringFunc` over the pattern `\x7b([a-z_]+)\x7d`, lines 46-57),
as a left-to-right scan over the character list: at a literal opening brace,
the maximal nonempty run of `[a-z_]` characters followed by a closing brace
is a placeholder and is replaced by `fieldLookup`; everything else is copied
verbatim (a failed match resumes scanning at the next character, as the
regexp engine does). -/
def renderChars (c : Customer) : List Char → List Char
  | [] => []
  | ch :: rest =>
    if ch = '{' then
      let run := rest.takeWhile isPlaceholderChar
      let rest2 := rest.dropWhile isPlaceholderChar
      if run ≠ [] ∧ rest2.head? = some '}' then
        (fieldLookup c (String.mk run)).data ++ renderChars c rest2.tail
      else
        ch :: renderChars c rest
    else
      ch :: renderChars c rest
termination_by l => l.length
decreasing_by
  · simp only [List.length_cons]
    have h2 : (rest.dropWhile isPlaceholderChar).length ≤ rest.length :=
      (List.dropWhile_sublist (l := rest) (p := isPlaceholderChar)).length_le
    have h1 : (rest.dropWhile isPlaceholderChar).tail.length ≤
        (rest.dropWhile isPlaceholderChar).length := by
      cases rest.dropWhile isPlaceholderChar <;> simp
    omega
  · simp
  · simp

/-- `templateService.Render` (lines 31-60): errors exactly when the customer
is nil, otherwise substitutes placeholders and never fails. -/
def Render (template : String) (customer : Option Customer) : Except AppErr String :=
  match customer with
  | none => .error (.invalidInput "customer cannot be nil")
  | some c => .ok (String.mk (renderChars c template.data))

/-- Rendering with a (non-nil) customer, as used by `SendCampaign` after a
successful customer fetch. -/
def renderTemplate (template : String) (c : Customer) : String :=
  String.mk (renderChars c template.data)

/-! ## The store (the relational system of record, internal/repository)

Database tables become lists; single-row `UPDATE ... WHERE id = $1` becomes a
map over the list; `queue` records the jobs published to the Redis list by
`Publish` (a `MessageJob` carries only the outbound message id); `nextId` is
the id sequence used by batch insert's `RETURNING id`. -/

structure Store where
  campaigns : List Campaign
  customers : List Customer
  messages : List OutboundMessage
  queue : List Int
  nextId : Int
deriving Repr, DecidableEq

/-- Row lookup behind `outboundMessageRepository.GetByID`. -/
def findMessage (st : Store) (id : Int) : Option OutboundMessage :=
  st.messages.find? (fun m => m.id == id)

/-- Row lookup behind `campaignRepository.GetByID`. -/
def findCampaign (st : Store) (id : Int) : Option Campaign :=
  st.campaigns.find? (fun c => c.id == id)

/-- Row lookup behind `customerRepository.GetByID`. -/
def findCustomer (st : Store) (id : Int) : Option Customer :=
  st.customers.find? (fun c => c.id == id)

/-- `outboundMessageRepository.GetByID`: `sql.ErrNoRows` becomes a not-found
error (`outbound_message_repository.go`, lines 104-131). -/
def MessageGetByID (st : Store) (id : Int) : Except String OutboundMessage :=
  match findMessage st id with
  | some m => .ok m
  | none => .error "outbound message not found"

/-- `campaignRepository.GetByID`. -/
def CampaignGetByID (st : Store) (id : Int) : Except String Campaign :=
  match findCampaign st id with
  | some c => .ok c
  | none => .error "campaign not found"

/-- `customerRepository.GetByID`. -/
def CustomerGetByID (st : Store) (id : Int) : Except String Customer :=
  match findCustomer st id with
  | some c => .ok c
  | none => .error "customer not found"

/-- The row effect of the message `UPDATE ... SET status, last_error` on the
store. -/
def setMessageRow (st : Store) (id : Int) (status : String)
    (lastError : Option String) : Store :=
  { st with
    messages := st.messages.map (fun m =>
      if m.id == id then { m with status := status, lastError := lastError }
      else m) }

/-- The row effect of `UPDATE ... SET retry_count = retry_count + 1`. -/
def bumpRetryRow (st : Store) (id : Int) : Store :=
  { st with
    messages := st.messages.map (fun m =>
      if m.id == id then { m with retryCount := m.retryCount + 1 }
      else m) }

/-- `outboundMessageRepository.UpdateStatus` (lines 243-264):
`UPDATE outbound_messages SET status = $1, last_error = $2 WHERE id = $3`,
not-found when no row is affected. -/
def MessageUpdateStatus (st : Store) (id : Int) (status : String)
    (lastError : Option String) : Except String Store :=
  if st.messages.any (fun m => m.id == id) then
    .ok (setMessageRow st id status lastError)
  else
    .error "outbound message not found"

/-- `outboundMessageRepository.IncrementRetryCount` (lines 308-330):
`UPDATE outbound_messages SET retry_count = retry_count + 1 WHERE id = $1`,
not-found when no row is affected. -/
def IncrementRetryCount (st : Store) (id : Int) : Except String Store :=
  if st.messages.any (fun m => m.id == id) then
    .ok (bumpRetryRow st id)
  else
    .error "outbound message not found"

/-- `campaignRepository.UpdateStatus`:
`UPDATE campaigns SET status = $2 WHERE id = $1`. -/
def CampaignUpdateStatus (st : Store) (id : Int) (status : String) : Store :=
  { st with
    campaigns := st.campaigns.map (fun c =>
      if c.id == id then { c with status := status } else c) }

/-- The stats computed by `campaignRepository.GetWithStats`
(`COUNT(*)` and `COUNT(*) FILTER (WHERE status = ...)` over
`outbound_messages WHERE campaign_id = $1`). -/
def campaignStats (st : Store) (campaignID : Int) : CampaignStats :=
  let msgs := st.messages.filter (fun m => m.campaignID == campaignID)
  { total := msgs.length
    pending := (msgs.filter (fun m => m.status == MessageStatusPending)).length
    sent := (msgs.filter (fun m => m.status == MessageStatusSent)).length
    failed := (msgs.filter (fun m => m.status == MessageStatusFailed)).length }

/-! ## Message processor (internal/worker/processor.go)

The delivery sender's outcome is passed as `sendResult` (`none` = the send
succeeded, `some cause` = it failed with that error text).  The two
repository calls inside campaign-completion aggregation may be made to fail
(`statsFail` for `GetWithStats`, `updFail` for the campaign `UpdateStatus`):
aggregation in the source swallows both errors.  `Process` returns the new
store and `none` for a nil error or `some text` for a returned error. -/

/-- Failure injection for the two store calls inside campaign-completion
aggregation. -/
structure AggEnv where
  statsFail : Bool
  updFail : Bool
deriving Repr, DecidableEq

/-- The failure-free environment. -/
def aggOk : AggEnv := ⟨false, false⟩

/-- `updateCampaignStatusIfComplete` (processor.go, lines 348-401): fetch the
campaign with stats (errors swallowed); do nothing while `pending > 0`; else
compute `failed` when `Failed > 0 && Sent == 0`, otherwise `sent`; skip the
write when the status already has that value; write the new status (errors
swallowed). -/
def updateCampaignStatusIfComplete (env : AggEnv) (st : Store)
    (campaignID : Int) : Store :=
  if env.statsFail then st
  else
    match findCampaign st campaignID with
    | none => st
    | some campaign =>
      let stats := campaignStats st campaignID
      if stats.pending > 0 then st
      else
        let newStatus :=
          if stats.failed > 0 ∧ stats.sent = 0 then CampaignStatusFailed
          else CampaignStatusSent
        if campaign.status = newStatus then st
        else if env.updFail then st
        else CampaignUpdateStatus st campaignID newStatus

/-- `handleSuccess` (processor.go, lines 273-287): set the message status to
`sent` with a nil error (a repository failure propagates), then run
campaign-completion aggregation and return nil. -/
def handleSuccess (env : AggEnv) (st : Store) (message : OutboundMessage) :
    Store × Option String :=
  match MessageUpdateStatus st message.id MessageStatusSent none with
  | .error e => (st, some ("failed to update message status: " ++ e))
  | .ok st1 => (updateCampaignStatusIfComplete env st1 message.campaignID, none)

/-- `handleFailure` (processor.go, lines 290-344): increment the retry
counter; if the fetched counter plus one reaches `maxRetries`, mark the
message failed with `"max retries exceeded: <cause>"`, run aggregation and
return nil; otherwise mark it failed with the raw cause and return an error
wrapping the cause and the attempt count. -/
def handleFailure (env : AggEnv) (maxRetries : Int) (st : Store)
    (message : OutboundMessage) (sendErr : String) : Store × Option String :=
  match IncrementRetryCount st message.id with
  | .error e => (st, some e)
  | .ok st1 =>
    if message.retryCount + 1 ≥ maxRetries then
      let errMsg := "max retries exceeded: " ++ sendErr
      match MessageUpdateStatus st1 message.id MessageStatusFailed (some errMsg) with
      | .error e => (st1, some e)
      | .ok st2 =>
        (updateCampaignStatusIfComplete env st2 message.campaignID, none)
    else
      match MessageUpdateStatus st1 message.id MessageStatusFailed (some sendErr) with
      | .error e => (st1, some e)
      | .ok st2 =>
        (st2, some ("send failed, retry " ++ toString (message.retryCount + 1)
          ++ "/" ++ toString maxRetries ++ ": " ++ sendErr))

/-- `MessageProcessor.Process` (processor.go, lines 211-270): fetch the
message, its campaign and its customer (each failure propagates without
mutating state), attempt delivery, then dispatch to `handleSuccess` or
`handleFailure`. -/
def Process (env : AggEnv) (maxRetries : Int) (sendResult : Option String)
    (st : Store) (jobId : Int) : Store × Option String :=
  match MessageGetByID st jobId with
  | .error e => (st, some ("failed to fetch message: " ++ e))
  | .ok message =>
    match CampaignGetByID st message.campaignID with
    | .error e => (st, some ("failed to fetch campaign: " ++ e))
    | .ok _campaign =>
      match CustomerGetByID st message.customerID with
      | .error e => (st, some ("failed to fetch customer: " ++ e))
      | .ok _customer =>
        match sendResult with
        | none => handleSuccess env st message
        | some cause => handleFailure env maxRetries st message cause

/-- A sequence of `Process` invocations: each step names the job (outbound
message id) and the delivery outcome the sender produced for it. -/
def processTrace (env : AggEnv) (maxRetries : Int)
    (steps : List (Int × Option String)) (st : Store) : Store :=
  steps.foldl (fun s step => (Process env maxRetries step.2 s step.1).1) st

/-- A trace is guarded when every step targets only messages whose retry
counter is still below the configured maximum (the pipeline enqueues one job
per message and never re-enqueues; a manual re-enqueue is meant only for
messages below the maximum). -/
def guardedFrom (env : AggEnv) (maxRetries : Int) :
    Store → List (Int × Option String) → Prop
  | _, [] => True
  | st, (jid, out) :: rest =>
    (∀ m ∈ st.messages, m.id = jid → m.retryCount < maxRetries) ∧
    guardedFrom env maxRetries (Process env maxRetries out st jid).1 rest

/-! ## Send orchestrator (internal/service/campaign_service.go, SendCampaign)

Failure injection for the fallible external effects of the send path: the
batch insert (`batchFail`), each queue publish (`publishFail`, keyed by the
published message id) and the best-effort campaign status update
(`statusUpdateFail`). -/

structure SendEnv where
  batchFail : Bool
  publishFail : Int → Bool
  statusUpdateFail : Bool

/-- The failure-free send environment. -/
def sendOk : SendEnv := ⟨false, fun _ => false, false⟩

/-- The result DTO of `SendCampaign` (`internal/service/dtos.go`,
`SendCampaignResult`). -/
structure SendCampaignResult where
  campaignID : Int
  messagesQueued : Nat
  status : String
deriving Repr, DecidableEq

/-- The per-recipient build loop of `SendCampaign` (lines 143-176): fetch each
customer (a missing customer is skipped, it does not abort the batch), render
the template against it and build a pending `OutboundMessage` with retry
count 0.  (`templateService.Render` errors only on a nil customer, which a
successful repository fetch never yields, so the render-error skip branch of
the source is unreachable here.) -/
def buildMessages (st : Store) (campaign : Campaign) :
    List Int → List OutboundMessage
  | [] => []
  | customerID :: rest =>
    match findCustomer st customerID with
    | none => buildMessages st campaign rest
    | some customer =>
      { id := 0
        campaignID := campaign.id
        customerID := customer.id
        status := MessageStatusPending
        renderedContent := renderTemplate campaign.baseTemplate customer
        lastError := none
        retryCount := 0 } :: buildMessages st campaign rest

/-- The id assignment performed by the batch insert's `RETURNING id`. -/
def assignIds (nextId : Int) : List OutboundMessage → List OutboundMessage
  | [] => []
  | m :: rest => { m with id := nextId } :: assignIds (nextId + 1) rest

/-- `outboundMessageRepository.CreateBatch` (lines 59-101): an empty batch
returns immediately; otherwise a single all-or-nothing transaction inserts
every row (ids assigned by the sequence) or fails without touching the
store. -/
def CreateBatch (batchFail : Bool) (st : Store) (msgs : List OutboundMessage) :
    Except String (Store × List OutboundMessage) :=
  if msgs.isEmpty then .ok (st, [])
  else if batchFail then .error "failed to create messages"
  else
    let assigned := assignIds st.nextId msgs
    .ok ({ st with
            messages := st.messages ++ assigned
            nextId := st.nextId + msgs.length }, assigned)

/-- `redisClient.Publish` (redis_client.go, lines 60-77): append the job to
the queue list, or fail without touching it. -/
def Publish (env : SendEnv) (st : Store) (jobId : Int) : Except String Store :=
  if env.publishFail jobId then .error "failed to push job to queue"
  else .ok { st with queue := st.queue ++ [jobId] }

/-- The enqueue loop of `SendCampaign` (lines 192-206): publish one job per
persisted message; a publish failure is logged and skipped; the count of
successful publishes is returned. -/
def enqueueAll (env : SendEnv) : Store → List OutboundMessage → Store × Nat
  | st, [] => (st, 0)
  | st, m :: rest =>
    match Publish env st m.id with
    | .error _ => enqueueAll env st rest
    | .ok st1 =>
      let r := enqueueAll env st1 rest
      (r.1, r.2 + 1)

/-- `campaignService.SendCampaign` (campaign_service.go, lines 123-227):
validate the request (empty recipient list is `InvalidInput`); load the
campaign (`NotFound` when absent); reject with `Conflict` unless
`CanBeSent`; build one pending message per resolvable recipient
(`InvalidInput` when none); batch-persist them (a failure aborts the send);
enqueue one job per persisted message; best-effort update of the campaign
status to `sending`; return the queued count with status `sending`. -/
def SendCampaign (env : SendEnv) (st : Store) (campaignID : Int)
    (customerIDs : List Int) : Store × Except AppErr SendCampaignResult :=
  if customerIDs.isEmpty then
    (st, .error (.invalidInput "customer_ids is required and cannot be empty"))
  else
    match findCampaign st campaignID with
    | none => (st, .error (.notFound "campaign not found"))
    | some campaign =>
      if ¬ campaign.CanBeSent then
        (st, .error (.conflict ("campaign with status '" ++ campaign.status
          ++ "' cannot be sent")))
      else
        let msgs := buildMessages st campaign customerIDs
        if msgs.isEmpty then
          (st, .error (.invalidInput "no valid customers found to send messages"))
        else
          match CreateBatch env.batchFail st msgs with
          | .error e => (st, .error (.internal e))
          | .ok (st1, assigned) =>
            let queued := enqueueAll env st1 assigned
            let st3 :=
              if env.statusUpdateFail then queued.1
              else CampaignUpdateStatus queued.1 campaignID CampaignStatusSending
            (st3, .ok { campaignID := campaign.id
                        messagesQueued := queued.2
                        status := CampaignStatusSending })

/-! ## Consumer concurrency clamp (internal/queue/redis_client.go, Consume) -/

/-- The capacity of the semaphore channel created by `redisClient.Consume`
(lines 81-96): the configured concurrency raised to at least 1 and clamped
to the hard maximum 5 (`if concurrency < 1 then 1`; `if concurrency > 5 then 5`). -/
def consumeSemaphoreCapacity (concurrency : Int) : Int :=
  let c1 := if concurrency < 1 then 1 else concurrency
  if c1 > 5 then 5 else c1

/-! ## Specification predicates and concrete fixtures -/

/-- The retry invariant of the spec: no retry counter exceeds the configured
maximum, and a message whose counter has reached the maximum has status
`failed`. -/
def retryInv (maxRetries : Int) (st : Store) : Prop :=
  ∀ m ∈ st.messages,
    m.retryCount ≤ maxRetries ∧
    (m.retryCount = maxRetries → m.status = MessageStatusFailed)

/-- A fixture customer. -/
def custA : Customer :=
  { id := 1, phone := "0700000001", firstName := "Ada", lastName := "Love"
    location := "Nairobi", preferredProduct := "tea" }

/-- A fixture campaign already in flight. -/
def campSending : Campaign :=
  { id := 1, name := "launch", channel := "sms", status := "sending"
    baseTemplate := "hi {first_name}" }

/-- A fixture campaign still in draft. -/
def campDraft : Campaign :=
  { id := 2, name := "relaunch", channel := "sms", status := "draft"
    baseTemplate := "hello {first_name}" }

/-- A fixture message that has already reached the retry maximum 1. -/
def msgAtMax : OutboundMessage :=
  { id := 10, campaignID := 1, customerID := 1, status := "failed"
    renderedContent := "hi Ada", lastError := some "earlier failure"
    retryCount := 1 }

/-- A fixture message still pending. -/
def msgPending : OutboundMessage :=
  { id := 10, campaignID := 1, customerID := 1, status := "pending"
    renderedContent := "hi Ada", lastError := none, retryCount := 0 }

/-- A store whose only message sits at the retry maximum 1. -/
def stAtMax : Store :=
  { campaigns := [campSending], customers := [custA], messages := [msgAtMax]
    queue := [], nextId := 100 }

/-- A store whose only message is pending. -/
def stPending : Store :=
  { campaigns := [campSending], customers := [custA], messages := [msgPending]
    queue := [], nextId := 100 }

/-- A store with a draft campaign and one customer, ready for a send. -/
def stDraft : Store :=
  { campaigns := [campDraft], customers := [custA], messages := []
    queue := [], nextId := 50 }

/-- A send environment whose batch insert fails. -/
def sendBatchFails : SendEnv := ⟨true, fun _ => false, false⟩

/-! ## General helper lemmas -/

theorem find?_map_update {α : Type} (p : α → Bool) (f : α → α)
    (hf : ∀ a, p (f a) = p a) (l : List α) :
    (l.map (fun a => if p a then f a else a)).find? p = (l.find? p).map f := by
  induction l with
  | nil => rfl
  | cons a l ih =>
    by_cases h : p a
    · simp [List.find?_cons, h, hf]
    · simp [List.find?_cons, h, ih]

theorem any_map_update {α : Type} (p q : α → Bool) (f : α → α)
    (hf : ∀ a, q (f a) = q a) (l : List α) :
    (l.map (fun a => if p a then f a else a)).any q = l.any q := by
  induction l with
  | nil => rfl
  | cons a l ih =>
    by_cases h : p a <;> simp [h, hf, ih]

theorem map_update_comp {α : Type} (p : α → Bool) (f g : α → α)
    (hf : ∀ a, p (f a) = p a) (l : List α) :
    ((l.map (fun a => if p a then f a else a)).map
        (fun a => if p a then g a else a)) =
      l.map (fun a => if p a then g (f a) else a) := by
  induction l with
  | nil => rfl
  | cons a l ih =>
    by_cases h : p a <;> simp [h, hf, ih]

/-! ## Store-level helper lemmas -/

theorem findMessage_id {st : Store} {id : Int} {m : OutboundMessage}
    (h : findMessage st id = some m) : m.id = id := by
  unfold findMessage at h
  have := List.find?_some h
  simpa using this

theorem findMessage_mem {st : Store} {id : Int} {m : OutboundMessage}
    (h : findMessage st id = some m) : m ∈ st.messages := by
  unfold findMessage at h
  exact List.mem_of_find?_eq_some h

theorem anyId_of_findMessage {st : Store} {id : Int} {m : OutboundMessage}
    (h : findMessage st id = some m) :
    st.messages.any (fun x => x.id == id) = true := by
  unfold findMessage at h
  exact List.any_eq_true.mpr
    ⟨m, List.mem_of_find?_eq_some h,
      List.find?_some (p := fun x : OutboundMessage => x.id == id) h⟩

theorem findMessage_setMessageRow (st : Store) (id : Int) (s : String)
    (le : Option String) :
    findMessage (setMessageRow st id s le) id =
      (findMessage st id).map (fun m => { m with status := s, lastError := le }) := by
  unfold findMessage setMessageRow
  exact find?_map_update (fun m => m.id == id)
    (fun m => { m with status := s, lastError := le }) (fun _ => rfl) st.messages

theorem findMessage_bumpRetryRow (st : Store) (id : Int) :
    findMessage (bumpRetryRow st id) id =
      (findMessage st id).map (fun m => { m with retryCount := m.retryCount + 1 }) := by
  unfold findMessage bumpRetryRow
  exact find?_map_update (fun m => m.id == id)
    (fun m => { m with retryCount := m.retryCount + 1 }) (fun _ => rfl) st.messages

theorem findCampaign_campaignUpdateStatus (st : Store) (cid : Int) (s : String) :
    findCampaign (CampaignUpdateStatus st cid s) cid =
      (findCampaign st cid).map (fun c => { c with status := s }) := by
  unfold findCampaign CampaignUpdateStatus
  exact find?_map_update (fun c => c.id == cid)
    (fun c => { c with status := s }) (fun _ => rfl) st.campaigns

theorem messageUpdateStatus_ok {st : Store} {id : Int} {m : OutboundMessage}
    (h : findMessage st id = some m) (s : String) (le : Option String) :
    MessageUpdateStatus st id s le = .ok (setMessageRow st id s le) := by
  unfold MessageUpdateStatus
  simp [anyId_of_findMessage h]

theorem incrementRetryCount_ok {st : Store} {id : Int} {m : OutboundMessage}
    (h : findMessage st id = some m) :
    IncrementRetryCount st id = .ok (bumpRetryRow st id) := by
  unfold IncrementRetryCount
  simp [anyId_of_findMessage h]

theorem agg_messages (env : AggEnv) (st : Store) (cid : Int) :
    (updateCampaignStatusIfComplete env st cid).messages = st.messages := by
  unfold updateCampaignStatusIfComplete
  split
  · rfl
  · split
    · rfl
    · simp only [CampaignUpdateStatus]
      split_ifs <;> rfl

theorem campaignStats_congr {st st' : Store} (h : st.messages = st'.messages)
    (cid : Int) : campaignStats st cid = campaignStats st' cid := by
  unfold campaignStats
  rw [h]

theorem findMessage_congr {st st' : Store} (h : st.messages = st'.messages)
    (id : Int) : findMessage st id = findMessage st' id := by
  unfold findMessage
  rw [h]

/-! ## Process path characterizations -/

theorem process_success_eq {st : Store} {jid : Int} {msg : OutboundMessage}
    {camp : Campaign} {cust : Customer}
    (hm : findMessage st jid = some msg)
    (hc : findCampaign st msg.campaignID = some camp)
    (hu : findCustomer st msg.customerID = some cust)
    (env : AggEnv) (maxR : Int) :
    Process env maxR none st jid =
      (updateCampaignStatusIfComplete env
        (setMessageRow st jid MessageStatusSent none) msg.campaignID, none) := by
  have hid : msg.id = jid := findMessage_id hm
  simp only [Process, MessageGetByID, CampaignGetByID, CustomerGetByID,
    hm, hc, hu, handleSuccess, hid,
    messageUpdateStatus_ok hm MessageStatusSent none]

theorem process_failure_atmax_eq {st : Store} {jid : Int} {msg : OutboundMessage}
    {camp : Campaign} {cust : Customer} {maxR : Int}
    (hm : findMessage st jid = some msg)
    (hc : findCampaign st msg.campaignID = some camp)
    (hu : findCustomer st msg.customerID = some cust)
    (env : AggEnv) (cause : String)
    (hge : msg.retryCount + 1 ≥ maxR) :
    Process env maxR (some cause) st jid =
      (updateCampaignStatusIfComplete env
        (setMessageRow (bumpRetryRow st jid) jid MessageStatusFailed
          (some ("max retries exceeded: " ++ cause))) msg.campaignID, none) := by
  have hid : msg.id = jid := findMessage_id hm
  have hb : findMessage (bumpRetryRow st jid) jid =
      some { msg with retryCount := msg.retryCount + 1 } := by
    rw [findMessage_bumpRetryRow, hm]
    rfl
  simp only [Process, MessageGetByID, CampaignGetByID, CustomerGetByID,
    hm, hc, hu, handleFailure, hid, incrementRetryCount_ok hm,
    messageUpdateStatus_ok hb MessageStatusFailed
      (some ("max retries exceeded: " ++ cause)), if_pos hge]

theorem process_failure_below_eq {st : Store} {jid : Int} {msg : OutboundMessage}
    {camp : Campaign} {cust : Customer} {maxR : Int}
    (hm : findMessage st jid = some msg)
    (hc : findCampaign st msg.campaignID = some camp)
    (hu : findCustomer st msg.customerID = some cust)
    (env : AggEnv) (cause : String)
    (hlt : msg.retryCount + 1 < maxR) :
    Process env maxR (some cause) st jid =
      (setMessageRow (bumpRetryRow st jid) jid MessageStatusFailed (some cause),
        some ("send failed, retry " ++ toString (msg.retryCount + 1) ++ "/"
          ++ toString maxR ++ ": " ++ cause)) := by
  have hid : msg.id = jid := findMessage_id hm
  have hb : findMessage (bumpRetryRow st jid) jid =
      some { msg with retryCount := msg.retryCount + 1 } := by
    rw [findMessage_bumpRetryRow, hm]
    rfl
  simp only [Process, MessageGetByID, CampaignGetByID, CustomerGetByID,
    hm, hc, hu, handleFailure, hid, incrementRetryCount_ok hm,
    messageUpdateStatus_ok hb MessageStatusFailed (some cause),
    if_neg (not_le.mpr hlt)]

/-! ## Aggregation helper lemmas -/

theorem findCampaign_congr {st st' : Store} (h : st.campaigns = st'.campaigns)
    (id : Int) : findCampaign st id = findCampaign st' id := by
  unfold findCampaign
  rw [h]

theorem setMessageRow_campaigns (st : Store) (id : Int) (s : String)
    (le : Option String) : (setMessageRow st id s le).campaigns = st.campaigns :=
  rfl

theorem bumpRetryRow_campaigns (st : Store) (id : Int) :
    (bumpRetryRow st id).campaigns = st.campaigns :=
  rfl

theorem agg_noop_of_pending_pos (st : Store) (cid : Int)
    (hp : (campaignStats st cid).pending > 0) :
    updateCampaignStatusIfComplete aggOk st cid = st := by
  unfold updateCampaignStatusIfComplete
  simp only [aggOk, Bool.false_eq_true, if_false]
  cases hfc : findCampaign st cid with
  | none => rfl
  | some c => simp [hp]

theorem agg_sets_final_status {st : Store} {cid : Int} {camp : Campaign}
    (hc : findCampaign st cid = some camp)
    (hp : (campaignStats st cid).pending = 0) :
    findCampaign (updateCampaignStatusIfComplete aggOk st cid) cid =
      some { camp with status :=
        if (campaignStats st cid).failed > 0 ∧ (campaignStats st cid).sent = 0
        then CampaignStatusFailed else CampaignStatusSent } := by
  unfold updateCampaignStatusIfComplete
  simp only [aggOk, Bool.false_eq_true, if_false, hc, hp, gt_iff_lt,
    lt_self_iff_false]
  by_cases hskip : camp.status =
      (if (campaignStats st cid).failed > 0 ∧ (campaignStats st cid).sent = 0
        then CampaignStatusFailed else CampaignStatusSent)
  · rw [if_pos hskip, hc]
    cases camp
    simp_all
  · rw [if_neg hskip, findCampaign_campaignUpdateStatus, hc]
    rfl

theorem agg_skip_noop {st : Store} {cid : Int} {camp : Campaign}
    (hc : findCampaign st cid = some camp)
    (hp : (campaignStats st cid).pending = 0)
    (hskip : camp.status =
      (if (campaignStats st cid).failed > 0 ∧ (campaignStats st cid).sent = 0
        then CampaignStatusFailed else CampaignStatusSent)) :
    updateCampaignStatusIfComplete aggOk st cid = st := by
  unfold updateCampaignStatusIfComplete
  simp only [aggOk, Bool.false_eq_true, if_false, hc, hp, gt_iff_lt,
    lt_self_iff_false]
  simp [hskip]

theorem pending_zero_of_terminal {st : Store} {cid : Int}
    (hall : ∀ m ∈ st.messages, m.campaignID = cid →
      m.status = MessageStatusSent ∨ m.status = MessageStatusFailed) :
    (campaignStats st cid).pending = 0 := by
  unfold campaignStats
  simp only [List.length_eq_zero, List.filter_eq_nil_iff]
  intro m hm
  rcases List.mem_filter.mp hm with ⟨hmem, hcid⟩
  rcases hall m hmem (by simpa using hcid) with h | h <;> rw [h] <;> decide

theorem failed_iff_all_failed {st : Store} {cid : Int}
    (hall : ∀ m ∈ st.messages, m.campaignID = cid →
      m.status = MessageStatusSent ∨ m.status = MessageStatusFailed)
    (hsome : ∃ m ∈ st.messages, m.campaignID = cid) :
    ((campaignStats st cid).failed > 0 ∧ (campaignStats st cid).sent = 0) ↔
      (∀ m ∈ st.messages, m.campaignID = cid →
        m.status = MessageStatusFailed) := by
  have hsent0 : ((st.messages.filter (fun m => m.campaignID == cid)).filter
        (fun m => m.status == MessageStatusSent)).length = 0 ↔
      ∀ m ∈ st.messages, m.campaignID = cid → m.status ≠ MessageStatusSent := by
    rw [List.length_eq_zero, List.filter_eq_nil_iff]
    constructor
    · intro h m hmem hcid hstat
      exact (h m (List.mem_filter.mpr ⟨hmem, by simpa using hcid⟩))
        (by simp [hstat])
    · intro h m hmf
      rcases List.mem_filter.mp hmf with ⟨hmem, hcid⟩
      simp only [beq_iff_eq]
      exact h m hmem (by simpa using hcid)
  have hfpos : 0 < ((st.messages.filter (fun m => m.campaignID == cid)).filter
        (fun m => m.status == MessageStatusFailed)).length ↔
      ∃ m ∈ st.messages, m.campaignID = cid ∧
        m.status = MessageStatusFailed := by
    rw [List.length_pos_iff_exists_mem]
    constructor
    · rintro ⟨m, hmf⟩
      rcases List.mem_filter.mp hmf with ⟨hmf1, hstat⟩
      rcases List.mem_filter.mp hmf1 with ⟨hmem, hcid⟩
      exact ⟨m, hmem, by simpa using hcid, by simpa using hstat⟩
    · rintro ⟨m, hmem, hcid, hstat⟩
      exact ⟨m, List.mem_filter.mpr
        ⟨List.mem_filter.mpr ⟨hmem, by simpa using hcid⟩, by simp [hstat]⟩⟩
  unfold campaignStats
  dsimp only
  rw [gt_iff_lt, hfpos, hsent0]
  constructor
  · rintro ⟨-, hs⟩ m hmem hcid
    rcases hall m hmem hcid with h | h
    · exact absurd h (hs m hmem hcid)
    · exact h
  · intro hallf
    refine ⟨?_, ?_⟩
    · rcases hsome with ⟨m, hmem, hcid⟩
      exact ⟨m, hmem, hcid, hallf m hmem hcid⟩
    · intro m hmem hcid hstat
      have h1 := hallf m hmem hcid
      rw [hstat] at h1
      exact absurd h1 (by decide)

theorem agg_converges {st : Store} {cid : Int} {camp : Campaign}
    (hc : findCampaign st cid = some camp)
    (hall : ∀ m ∈ st.messages, m.campaignID = cid →
      m.status = MessageStatusSent ∨ m.status = MessageStatusFailed)
    (hsome : ∃ m ∈ st.messages, m.campaignID = cid) :
    ∃ c, findCampaign (updateCampaignStatusIfComplete aggOk st cid) cid =
        some c ∧
      (c.status = CampaignStatusFailed ∨ c.status = CampaignStatusSent) ∧
      (c.status = CampaignStatusFailed ↔
        ∀ m ∈ st.messages, m.campaignID = cid →
          m.status = MessageStatusFailed) := by
  have hp := pending_zero_of_terminal hall
  have hiff := failed_iff_all_failed hall hsome
  refine ⟨_, agg_sets_final_status hc hp, ?_, ?_⟩
  · by_cases hcond : (campaignStats st cid).failed > 0 ∧
        (campaignStats st cid).sent = 0
    · simp only [if_pos hcond]
      left
      trivial
    · simp only [if_neg hcond]
      right
      trivial
  · by_cases hcond : (campaignStats st cid).failed > 0 ∧
        (campaignStats st cid).sent = 0
    · simp only [if_pos hcond]
      exact iff_of_true trivial (hiff.mp hcond)
    · simp only [if_neg hcond]
      exact iff_of_false (by decide) (fun hAll => hcond (hiff.mpr hAll))

/-! ## C1: aggregation behavior and completion convergence -/

/-- C1: campaign-completion aggregation does nothing while the pending count
is positive; at pending zero it drives the campaign status to `failed` when
`failed > 0` and `sent = 0` and to `sent` otherwise, skipping the write when
the status already holds that value; consequently, a trace of Process steps
whose last step gives a message of the campaign a terminal outcome, after
which every message of the campaign is terminal, leaves the campaign status
`failed` iff every message of the campaign is `failed`, else `sent`. -/
theorem c1_aggregation_convergence :
    (∀ st cid, (campaignStats st cid).pending > 0 →
      updateCampaignStatusIfComplete aggOk st cid = st) ∧
    (∀ st cid camp, findCampaign st cid = some camp →
      (campaignStats st cid).pending = 0 →
      (findCampaign (updateCampaignStatusIfComplete aggOk st cid) cid =
        some { camp with status :=
          if (campaignStats st cid).failed > 0 ∧ (campaignStats st cid).sent = 0
          then CampaignStatusFailed else CampaignStatusSent }) ∧
      (camp.status =
          (if (campaignStats st cid).failed > 0 ∧ (campaignStats st cid).sent = 0
            then CampaignStatusFailed else CampaignStatusSent) →
        updateCampaignStatusIfComplete aggOk st cid = st)) ∧
    (∀ maxR st0 init jid outcome msg camp cust,
      findMessage (processTrace aggOk maxR init st0) jid = some msg →
      findCampaign (processTrace aggOk maxR init st0) msg.campaignID = some camp →
      findCustomer (processTrace aggOk maxR init st0) msg.customerID = some cust →
      (outcome = none ∨ ∃ e, outcome = some e ∧ msg.retryCount + 1 ≥ maxR) →
      (∀ m ∈ (processTrace aggOk maxR (init ++ [(jid, outcome)]) st0).messages,
        m.campaignID = msg.campaignID →
        m.status = MessageStatusSent ∨ m.status = MessageStatusFailed) →
      (∃ m ∈ (processTrace aggOk maxR (init ++ [(jid, outcome)]) st0).messages,
        m.campaignID = msg.campaignID) →
      ∃ c, findCampaign (processTrace aggOk maxR (init ++ [(jid, outcome)]) st0)
            msg.campaignID = some c ∧
        (c.status = CampaignStatusFailed ∨ c.status = CampaignStatusSent) ∧
        (c.status = CampaignStatusFailed ↔
          ∀ m ∈ (processTrace aggOk maxR (init ++ [(jid, outcome)]) st0).messages,
            m.campaignID = msg.campaignID →
              m.status = MessageStatusFailed)) := by
  refine ⟨agg_noop_of_pending_pos, ?_, ?_⟩
  · intro st cid camp hc hp
    exact ⟨agg_sets_final_status hc hp, fun hskip => agg_skip_noop hc hp hskip⟩
  · intro maxR st0 init jid outcome msg camp cust hm hc hu hterm hall hsome
    have htr : processTrace aggOk maxR (init ++ [(jid, outcome)]) st0 =
        (Process aggOk maxR outcome (processTrace aggOk maxR init st0) jid).1 := by
      unfold processTrace
      rw [List.foldl_append]
      rfl
    rw [htr] at hall hsome ⊢
    rcases hterm with rfl | ⟨e, rfl, hge⟩
    · have h1 : (Process aggOk maxR none (processTrace aggOk maxR init st0) jid).1 =
          updateCampaignStatusIfComplete aggOk
            (setMessageRow (processTrace aggOk maxR init st0) jid
              MessageStatusSent none) msg.campaignID := by
        rw [process_success_eq hm hc hu aggOk maxR]
      rw [h1] at hall hsome ⊢
      rw [agg_messages] at hall hsome ⊢
      have hcX : findCampaign
          (setMessageRow (processTrace aggOk maxR init st0) jid
            MessageStatusSent none) msg.campaignID = some camp := by
        rw [findCampaign_congr (setMessageRow_campaigns _ _ _ _) _]
        exact hc
      exact agg_converges hcX hall hsome
    · have h1 : (Process aggOk maxR (some e) (processTrace aggOk maxR init st0) jid).1 =
          updateCampaignStatusIfComplete aggOk
            (setMessageRow (bumpRetryRow (processTrace aggOk maxR init st0) jid)
              jid MessageStatusFailed (some ("max retries exceeded: " ++ e)))
            msg.campaignID := by
        rw [process_failure_atmax_eq hm hc hu aggOk e hge]
      rw [h1] at hall hsome ⊢
      rw [agg_messages] at hall hsome ⊢
      have hcX : findCampaign
          (setMessageRow (bumpRetryRow (processTrace aggOk maxR init st0) jid)
            jid MessageStatusFailed (some ("max retries exceeded: " ++ e)))
          msg.campaignID = some camp := by
        rw [findCampaign_congr (setMessageRow_campaigns _ _ _ _) _,
          findCampaign_congr (bumpRetryRow_campaigns _ _) _]
        exact hc
      exact agg_converges hcX hall hsome

/-- Witness for C1 at a concrete input: one pending message whose successful
processing completes the campaign and flips it to `sent`. -/
theorem c1_aggregation_convergence_witness :
    ∃ c, findCampaign (processTrace aggOk 3 ([] ++ [((10 : Int), none)]) stPending)
          msgPending.campaignID = some c ∧
      (c.status = CampaignStatusFailed ∨ c.status = CampaignStatusSent) ∧
      (c.status = CampaignStatusFailed ↔
        ∀ m ∈ (processTrace aggOk 3 ([] ++ [((10 : Int), none)]) stPending).messages,
          m.campaignID = msgPending.campaignID →
            m.status = MessageStatusFailed) :=
  c1_aggregation_convergence.2.2 3 stPending [] 10 none msgPending campSending
    custA (by decide) (by decide) (by decide) (Or.inl rfl) (by decide) (by decide)

/-! ## C2: failure handling in Process -/

/-- C2: when delivery fails, `Process` increments the stored retry counter by
one unconditionally; if the incremented counter reaches the configured
maximum it records status `failed` with error text
`"max retries exceeded: <cause>"` and returns no error; below the maximum it
records status `failed` with the raw cause and returns an error wrapping the
cause and the attempt count. -/
theorem c2_failure_handling (env : AggEnv) (maxRetries : Int) (st : Store)
    (jid : Int) (msg : OutboundMessage) (camp : Campaign) (cust : Customer)
    (cause : String)
    (hm : findMessage st jid = some msg)
    (hc : findCampaign st msg.campaignID = some camp)
    (hu : findCustomer st msg.customerID = some cust) :
    (findMessage (Process env maxRetries (some cause) st jid).1 jid =
      some { msg with
        retryCount := msg.retryCount + 1
        status := MessageStatusFailed
        lastError := some (if msg.retryCount + 1 ≥ maxRetries
          then "max retries exceeded: " ++ cause else cause) }) ∧
    (msg.retryCount + 1 ≥ maxRetries →
      (Process env maxRetries (some cause) st jid).2 = none) ∧
    (msg.retryCount + 1 < maxRetries →
      (Process env maxRetries (some cause) st jid).2 =
        some ("send failed, retry " ++ toString (msg.retryCount + 1) ++ "/"
          ++ toString maxRetries ++ ": " ++ cause)) := by
  by_cases hge : msg.retryCount + 1 ≥ maxRetries
  · rw [process_failure_atmax_eq hm hc hu env cause hge]
    refine ⟨?_, fun _ => rfl, fun hlt => absurd hge (not_le.mpr hlt)⟩
    rw [findMessage_congr (agg_messages _ _ _) jid,
      findMessage_setMessageRow, findMessage_bumpRetryRow, hm, if_pos hge]
    rfl
  · have hlt : msg.retryCount + 1 < maxRetries := lt_of_not_ge hge
    rw [process_failure_below_eq hm hc hu env cause hlt]
    refine ⟨?_, fun h => absurd h hge, fun _ => rfl⟩
    rw [findMessage_setMessageRow, findMessage_bumpRetryRow, hm, if_neg hge]
    rfl

/-- Witness for C2 at a concrete input: one pending message, retry maximum 3,
a failing delivery. -/
theorem c2_failure_handling_witness :
    findMessage (Process aggOk 3 (some "boom") stPending 10).1 10 =
      some { msgPending with
        retryCount := 1
        status := MessageStatusFailed
        lastError := some "boom" } ∧
    (Process aggOk 3 (some "boom") stPending 10).2 =
      some "send failed, retry 1/3: boom" := by
  have h := c2_failure_handling aggOk 3 stPending 10 msgPending campSending
    custA "boom" (by decide) (by decide) (by decide)
  refine ⟨?_, h.2.2 (by decide)⟩
  have h1 := h.1
  rw [if_neg (by decide)] at h1
  exact h1

/-! ## C10: aggregation failures never leak out of Process -/

/-- C10: after a successful delivery, or a failed delivery that reached the
retry maximum, `Process` returns no error even when the stats fetch or the
campaign status update inside campaign-completion aggregation fails, and the
message's freshly written terminal status is untouched by the aggregation
outcome. -/
theorem c10_agg_failure_isolated (env : AggEnv) (maxRetries : Int) (st : Store)
    (jid : Int) (msg : OutboundMessage) (camp : Campaign) (cust : Customer)
    (outcome : Option String)
    (hm : findMessage st jid = some msg)
    (hc : findCampaign st msg.campaignID = some camp)
    (hu : findCustomer st msg.customerID = some cust)
    (hterm : outcome = none ∨
      ∃ e, outcome = some e ∧ msg.retryCount + 1 ≥ maxRetries) :
    (Process env maxRetries outcome st jid).2 = none ∧
    (Process env maxRetries outcome st jid).1.messages =
      (Process aggOk maxRetries outcome st jid).1.messages ∧
    (findMessage (Process env maxRetries outcome st jid).1 jid).map
        (fun m => m.status) =
      some (if outcome = none then MessageStatusSent else MessageStatusFailed) := by
  rcases hterm with rfl | ⟨e, rfl, hge⟩
  · rw [process_success_eq hm hc hu env maxRetries,
      process_success_eq hm hc hu aggOk maxRetries]
    refine ⟨rfl, by rw [agg_messages, agg_messages], ?_⟩
    rw [findMessage_congr (agg_messages _ _ _) jid, findMessage_setMessageRow,
      hm, if_pos rfl]
    rfl
  · rw [process_failure_atmax_eq hm hc hu env e hge,
      process_failure_atmax_eq hm hc hu aggOk e hge]
    refine ⟨rfl, by rw [agg_messages, agg_messages], ?_⟩
    rw [findMessage_congr (agg_messages _ _ _) jid, findMessage_setMessageRow,
      findMessage_bumpRetryRow, hm, if_neg (by simp)]
    rfl

/-- Witness for C10 at a concrete input: both aggregation calls fail, the
delivery succeeded, and Process still returns no error with the message
marked sent. -/
theorem c10_agg_failure_isolated_witness :
    (Process ⟨true, true⟩ 3 none stPending 10).2 = none ∧
    (findMessage (Process ⟨true, true⟩ 3 none stPending 10).1 10).map
        (fun m => m.status) = some MessageStatusSent := by
  have h := c10_agg_failure_isolated ⟨true, true⟩ 3 stPending 10 msgPending
    campSending custA none (by decide) (by decide) (by decide) (Or.inl rfl)
  refine ⟨h.1, ?_⟩
  have h3 := h.2.2
  rw [if_pos rfl] at h3
  exact h3

/-! ## Renderer helper lemmas -/

theorem takeWhile_append_all {p : Char → Bool} {xs : List Char} (ys : List Char)
    (h : ∀ x ∈ xs, p x = true) :
    (xs ++ ys).takeWhile p = xs ++ ys.takeWhile p := by
  induction xs with
  | nil => simp
  | cons a l ih =>
    have ha := h a (by simp)
    simp only [List.cons_append, List.takeWhile_cons, ha, if_true]
    rw [ih (fun x hx => h x (by simp [hx]))]

theorem dropWhile_append_all {p : Char → Bool} {xs : List Char} (ys : List Char)
    (h : ∀ x ∈ xs, p x = true) :
    (xs ++ ys).dropWhile p = ys.dropWhile p := by
  induction xs with
  | nil => simp
  | cons a l ih =>
    have ha := h a (by simp)
    simp only [List.cons_append, List.dropWhile_cons, ha, if_true]
    exact ih (fun x hx => h x (by simp [hx]))

theorem renderChars_placeholder (c : Customer) (name rest : List Char)
    (hne : name ≠ []) (hall : ∀ x ∈ name, isPlaceholderChar x = true) :
    renderChars c ('{' :: (name ++ '}' :: rest)) =
      (fieldLookup c (String.mk name)).data ++ renderChars c rest := by
  have hpr : isPlaceholderChar '}' = false := rfl
  have ht : (name ++ '}' :: rest).takeWhile isPlaceholderChar = name := by
    rw [takeWhile_append_all _ hall]
    simp [List.takeWhile_cons, hpr]
  have hd : (name ++ '}' :: rest).dropWhile isPlaceholderChar = '}' :: rest := by
    rw [dropWhile_append_all _ hall]
    simp [List.dropWhile_cons, hpr]
  rw [renderChars]
  simp only [ht, hd, reduceIte, List.head?_cons, List.tail_cons]
  rw [if_pos ⟨hne, trivial⟩]

theorem renderChars_literal (c : Customer) (ch : Char) (rest : List Char)
    (h : ch ≠ '{') :
    renderChars c (ch :: rest) = ch :: renderChars c rest := by
  rw [renderChars]
  simp [h]

/-! ## Send-orchestrator helper lemmas -/

theorem enqueueAll_count (env : SendEnv) (msgs : List OutboundMessage) :
    ∀ st : Store, (enqueueAll env st msgs).2 =
      msgs.countP (fun m => ! env.publishFail m.id) := by
  induction msgs with
  | nil => intro st; rfl
  | cons m rest ih =>
    intro st
    unfold enqueueAll Publish
    by_cases hp : env.publishFail m.id
    · simp [hp, ih, List.countP_cons]
    · simp [hp, ih, List.countP_cons]

theorem enqueueAll_campaigns (env : SendEnv) (msgs : List OutboundMessage) :
    ∀ st : Store, (enqueueAll env st msgs).1.campaigns = st.campaigns := by
  induction msgs with
  | nil => intro st; rfl
  | cons m rest ih =>
    intro st
    unfold enqueueAll Publish
    by_cases hp : env.publishFail m.id
    · simp [hp, ih]
    · simp [hp, ih]

theorem buildMessages_length (st : Store) (camp : Campaign) (ids : List Int) :
    (buildMessages st camp ids).length =
      ids.countP (fun i => (findCustomer st i).isSome) := by
  induction ids with
  | nil => rfl
  | cons i rest ih =>
    unfold buildMessages
    cases hfc : findCustomer st i <;> simp [hfc, ih, List.countP_cons]

theorem sendCampaign_conflict_eq {st : Store} {cid : Int} {camp : Campaign}
    (env : SendEnv) (ids : List Int) (hne : ids ≠ [])
    (hc : findCampaign st cid = some camp)
    (hsend : camp.CanBeSent = false) :
    SendCampaign env st cid ids =
      (st, .error (.conflict ("campaign with status '" ++ camp.status
        ++ "' cannot be sent"))) := by
  have hie : ids.isEmpty = false := by simpa using hne
  simp [SendCampaign, hie, hc, hsend]

theorem sendCampaign_sets_sending {st : Store} {cid : Int} {camp : Campaign}
    (ids : List Int)
    (hne : ids.isEmpty = false)
    (hc : findCampaign st cid = some camp)
    (hsend : camp.CanBeSent = true)
    (hbuild : (buildMessages st camp ids).isEmpty = false) :
    findCampaign (SendCampaign sendOk st cid ids).1 cid =
      some { camp with status := CampaignStatusSending } := by
  simp only [SendCampaign, hne, Bool.false_eq_true, if_false, hc, hsend,
    not_true, CreateBatch, sendOk, hbuild]
  rw [findCampaign_campaignUpdateStatus,
    findCampaign_congr (enqueueAll_campaigns _ _ _) cid]
  have : findCampaign { st with
      messages := st.messages ++ assignIds st.nextId (buildMessages st camp ids)
      nextId := st.nextId + (buildMessages st camp ids).length } cid =
      findCampaign st cid := rfl
  rw [this, hc]
  rfl

theorem canBeSent_sending (c : Campaign) :
    ({ c with status := CampaignStatusSending } : Campaign).CanBeSent = false := by
  unfold Campaign.CanBeSent
  rfl

/-! ## C4: the idempotency gate -/

/-- C4: `SendCampaign` on a campaign that is neither `draft` nor `scheduled`
returns a Conflict error and leaves the store (messages and queue included)
untouched; hence a successful send followed by a second send of the same
campaign yields Conflict on the second call and the second call changes
nothing. -/
theorem c4_conflict_idempotency :
    (∀ env st cid ids camp, ids ≠ [] →
      findCampaign st cid = some camp →
      camp.status ≠ CampaignStatusDraft →
      camp.status ≠ CampaignStatusScheduled →
      SendCampaign env st cid ids =
        (st, .error (.conflict ("campaign with status '" ++ camp.status
          ++ "' cannot be sent")))) ∧
    (∀ st cid ids ids2 r, ids2 ≠ [] →
      (SendCampaign sendOk st cid ids).2 = .ok r →
      (SendCampaign sendOk (SendCampaign sendOk st cid ids).1 cid ids2).1 =
        (SendCampaign sendOk st cid ids).1 ∧
      ∃ msg, (SendCampaign sendOk (SendCampaign sendOk st cid ids).1 cid ids2).2 =
        .error (.conflict msg)) := by
  constructor
  · intro env st cid ids camp hne hc hd hs
    have hsend : camp.CanBeSent = false := by
      unfold Campaign.CanBeSent
      simp [hd, hs]
    exact sendCampaign_conflict_eq env ids hne hc hsend
  · intro st cid ids ids2 r hne2 hok
    cases h1 : ids.isEmpty with
    | true =>
      exfalso
      simp [SendCampaign, h1] at hok
    | false =>
      rcases h2 : findCampaign st cid with _ | camp0
      · exfalso
        simp [SendCampaign, h1, h2] at hok
      cases h3 : camp0.CanBeSent with
      | false =>
        exfalso
        simp [SendCampaign, h1, h2, h3] at hok
      | true =>
        cases h4 : (buildMessages st camp0 ids).isEmpty with
        | true =>
          exfalso
          simp [SendCampaign, h1, h2, h3, h4] at hok
        | false =>
          have hfc1 := sendCampaign_sets_sending ids h1 h2 h3 h4
          rw [sendCampaign_conflict_eq sendOk ids2 hne2 hfc1
            (canBeSent_sending camp0)]
          exact ⟨rfl, _, rfl⟩

/-- Witness for C4 at a concrete input: a successful send from `draft`, then
Conflict on the second send with no store change. -/
theorem c4_conflict_idempotency_witness :
    (SendCampaign sendOk
        (SendCampaign sendOk stDraft 2 [(1 : Int)]).1 2 [(1 : Int)]).1 =
      (SendCampaign sendOk stDraft 2 [(1 : Int)]).1 ∧
    ∃ msg, (SendCampaign sendOk
        (SendCampaign sendOk stDraft 2 [(1 : Int)]).1 2 [(1 : Int)]).2 =
      .error (.conflict msg) :=
  c4_conflict_idempotency.2 stDraft 2 [(1 : Int)] [(1 : Int)]
    { campaignID := 2, messagesQueued := 1, status := CampaignStatusSending }
    (by decide) rfl

/-! ## C5: batch-persist failure aborts the send -/

/-- C5: when the batch persist of the built messages fails, `SendCampaign`
returns an error and the store is exactly the input store, so no job was
published and the campaign status is unchanged. -/
theorem c5_batch_failure_aborts (env : SendEnv) (st : Store) (cid : Int)
    (ids : List Int) (camp : Campaign)
    (hbf : env.batchFail = true)
    (hne : ids ≠ [])
    (hc : findCampaign st cid = some camp)
    (hsend : camp.CanBeSent = true)
    (hbuild : buildMessages st camp ids ≠ []) :
    SendCampaign env st cid ids =
      (st, .error (.internal "failed to create messages")) := by
  have hie : ids.isEmpty = false := by simpa using hne
  have hbe : (buildMessages st camp ids).isEmpty = false := by
    simpa using hbuild
  simp [SendCampaign, CreateBatch, hie, hbe, hc, hsend, hbf]

/-- Witness for C5 at a concrete input: a draft campaign, one resolvable
recipient, a failing batch insert. -/
theorem c5_batch_failure_aborts_witness :
    SendCampaign sendBatchFails stDraft 2 [(1 : Int)] =
      (stDraft, .error (.internal "failed to create messages")) :=
  c5_batch_failure_aborts sendBatchFails stDraft 2 [(1 : Int)] campDraft
    rfl (by decide) (by decide) (by decide) (by decide)

/-! ## C6: partial sends -/

/-- C6: recipients that resolve to no customer are skipped: the number of
built messages equals the number of resolvable recipient ids; when none is
buildable the send fails with InvalidInput; when at least one is buildable
the send succeeds with status `sending` and a queued count equal to the
number of built messages whose enqueue succeeded. -/
theorem c6_partial_send (env : SendEnv) (st : Store) (cid : Int)
    (ids : List Int) (camp : Campaign)
    (hbf : env.batchFail = false)
    (hne : ids ≠ [])
    (hc : findCampaign st cid = some camp)
    (hsend : camp.CanBeSent = true) :
    ((buildMessages st camp ids).length =
      ids.countP (fun i => (findCustomer st i).isSome)) ∧
    (buildMessages st camp ids = [] →
      SendCampaign env st cid ids =
        (st, .error (.invalidInput "no valid customers found to send messages"))) ∧
    (buildMessages st camp ids ≠ [] →
      (SendCampaign env st cid ids).2 =
        .ok { campaignID := camp.id
              messagesQueued :=
                (assignIds st.nextId (buildMessages st camp ids)).countP
                  (fun m => ! env.publishFail m.id)
              status := CampaignStatusSending }) := by
  have hie : ids.isEmpty = false := by simpa using hne
  refine ⟨buildMessages_length st camp ids, ?_, ?_⟩
  · intro hb
    simp [SendCampaign, hie, hc, hsend, hb]
  · intro hbuild
    have hbe : (buildMessages st camp ids).isEmpty = false := by
      simpa using hbuild
    simp only [SendCampaign, hie, Bool.false_eq_true, if_false, hc, hsend,
      not_true, CreateBatch, hbf, hbe]
    rw [enqueueAll_count]

/-- Witness for C6 at a concrete input: recipients `[1, 99]` where only
customer 1 exists; one message is built and queued and the result status is
`sending`. -/
theorem c6_partial_send_witness :
    ((buildMessages stDraft campDraft [(1 : Int), 99]).length =
      ([(1 : Int), 99]).countP (fun i => (findCustomer stDraft i).isSome)) ∧
    (SendCampaign sendOk stDraft 2 [(1 : Int), 99]).2 =
      .ok { campaignID := campDraft.id
            messagesQueued :=
              (assignIds stDraft.nextId
                (buildMessages stDraft campDraft [(1 : Int), 99])).countP
                (fun m => ! sendOk.publishFail m.id)
            status := CampaignStatusSending } := by
  have h := c6_partial_send sendOk stDraft 2 [(1 : Int), 99] campDraft
    rfl (by decide) (by decide) (by decide)
  exact ⟨h.1, h.2.2 (by decide)⟩

/-! ## Retry-invariant helper lemmas -/

theorem retryInv_congr {maxR : Int} {st st' : Store}
    (h : st.messages = st'.messages) (hinv : retryInv maxR st) :
    retryInv maxR st' := by
  unfold retryInv at hinv ⊢
  rw [← h]
  exact hinv

theorem retryInv_sent_update {maxR : Int} {st : Store} {jid : Int}
    (hguard : ∀ m ∈ st.messages, m.id = jid → m.retryCount < maxR)
    (hinv : retryInv maxR st) :
    retryInv maxR (setMessageRow st jid MessageStatusSent none) := by
  unfold retryInv setMessageRow
  intro m' hm'
  rcases List.mem_map.mp hm' with ⟨m, hmem, rfl⟩
  by_cases hid : (m.id == jid) = true
  · have hlt := hguard m hmem (by simpa using hid)
    simp only [hid, if_true]
    exact ⟨le_of_lt hlt, fun hEq => absurd hEq (ne_of_lt hlt)⟩
  · simp only [hid, if_false]
    exact hinv m hmem

theorem retryInv_fail_update {maxR : Int} {st : Store} {jid : Int}
    (hguard : ∀ m ∈ st.messages, m.id = jid → m.retryCount < maxR)
    (hinv : retryInv maxR st) (le : Option String) :
    retryInv maxR
      (setMessageRow (bumpRetryRow st jid) jid MessageStatusFailed le) := by
  unfold retryInv setMessageRow bumpRetryRow
  dsimp only
  rw [map_update_comp (fun m => m.id == jid)
    (fun m => { m with retryCount := m.retryCount + 1 })
    (fun m => { m with status := MessageStatusFailed, lastError := le })
    (fun _ => rfl) st.messages]
  intro m' hm'
  rcases List.mem_map.mp hm' with ⟨m, hmem, rfl⟩
  by_cases hid : (m.id == jid) = true
  · have hlt := hguard m hmem (by simpa using hid)
    simp only [hid, if_true]
    refine ⟨?_, ?_⟩
    · show m.retryCount + 1 ≤ maxR
      omega
    · intro _
      trivial
  · simp only [hid, if_false]
    exact hinv m hmem

theorem process_preserves_retryInv (env : AggEnv) (maxR : Int) (st : Store)
    (jid : Int) (out : Option String)
    (hguard : ∀ m ∈ st.messages, m.id = jid → m.retryCount < maxR)
    (hinv : retryInv maxR st) :
    retryInv maxR (Process env maxR out st jid).1 := by
  rcases hm : findMessage st jid with _ | msg
  · simpa [Process, MessageGetByID, hm] using hinv
  rcases hcf : findCampaign st msg.campaignID with _ | camp
  · simpa [Process, MessageGetByID, CampaignGetByID, hm, hcf] using hinv
  rcases hcu : findCustomer st msg.customerID with _ | cust
  · simpa [Process, MessageGetByID, CampaignGetByID, CustomerGetByID,
      hm, hcf, hcu] using hinv
  rcases out with _ | cause
  · have h1 : (Process env maxR none st jid).1 =
        updateCampaignStatusIfComplete env
          (setMessageRow st jid MessageStatusSent none) msg.campaignID := by
      rw [process_success_eq hm hcf hcu env maxR]
    rw [h1]
    exact retryInv_congr (agg_messages _ _ _).symm
      (retryInv_sent_update hguard hinv)
  · by_cases hge : msg.retryCount + 1 ≥ maxR
    · have h1 : (Process env maxR (some cause) st jid).1 =
          updateCampaignStatusIfComplete env
            (setMessageRow (bumpRetryRow st jid) jid MessageStatusFailed
              (some ("max retries exceeded: " ++ cause))) msg.campaignID := by
        rw [process_failure_atmax_eq hm hcf hcu env cause hge]
      rw [h1]
      exact retryInv_congr (agg_messages _ _ _).symm
        (retryInv_fail_update hguard hinv _)
    · have h1 : (Process env maxR (some cause) st jid).1 =
          setMessageRow (bumpRetryRow st jid) jid MessageStatusFailed
            (some cause) := by
        rw [process_failure_below_eq hm hcf hcu env cause (lt_of_not_ge hge)]
      rw [h1]
      exact retryInv_fail_update hguard hinv _

/-! ## C3: retry monotonicity and the retry bound -/

/-- C3 counterexample: the code does not guard against reprocessing a message
that already sits at the retry maximum.  With maximum 1 and a message whose
counter is already 1, a further failed `Process` drives the counter to 2,
exceeding the maximum, and a further successful `Process` flips the
supposedly permanent `failed` status to `sent`. -/
theorem c3_counterexample :
    (findMessage (Process aggOk 1 (some "boom") stAtMax 10).1 10).map
        (fun m => m.retryCount) = some 2 ∧
    ¬ ((2 : Int) ≤ 1) ∧
    (findMessage (Process aggOk 1 none stAtMax 10).1 10).map
        (fun m => m.status) = some MessageStatusSent := by
  decide

/-- C3 (amended): each failed delivery attempt increments the retry counter
by exactly 1; and along any trace of Process invocations in which every step
targets only messages whose retry counter is below the configured maximum
(the pipeline enqueues one job per message and never re-enqueues an at-max
message), the counters never exceed the maximum and a message at the maximum
keeps status `failed`. -/
theorem c3_retry_monotonic :
    (∀ env maxR st jid msg camp cust cause,
      findMessage st jid = some msg →
      findCampaign st msg.campaignID = some camp →
      findCustomer st msg.customerID = some cust →
      (findMessage (Process env maxR (some cause) st jid).1 jid).map
          (fun m => m.retryCount) = some (msg.retryCount + 1)) ∧
    (∀ env maxR steps st, retryInv maxR st →
      guardedFrom env maxR st steps →
      retryInv maxR (processTrace env maxR steps st)) := by
  constructor
  · intro env maxR st jid msg camp cust cause hm hc hu
    by_cases hge : msg.retryCount + 1 ≥ maxR
    · have h1 : (Process env maxR (some cause) st jid).1 =
          updateCampaignStatusIfComplete env
            (setMessageRow (bumpRetryRow st jid) jid MessageStatusFailed
              (some ("max retries exceeded: " ++ cause))) msg.campaignID := by
        rw [process_failure_atmax_eq hm hc hu env cause hge]
      rw [h1, findMessage_congr (agg_messages _ _ _) jid,
        findMessage_setMessageRow, findMessage_bumpRetryRow, hm]
      rfl
    · have h1 : (Process env maxR (some cause) st jid).1 =
          setMessageRow (bumpRetryRow st jid) jid MessageStatusFailed
            (some cause) := by
        rw [process_failure_below_eq hm hc hu env cause (lt_of_not_ge hge)]
      rw [h1, findMessage_setMessageRow, findMessage_bumpRetryRow, hm]
      rfl
  · intro env maxR steps
    induction steps with
    | nil => exact fun st hinv _ => hinv
    | cons s rest ih =>
      intro st hinv hg
      rcases s with ⟨jid, out⟩
      rcases hg with ⟨hguard, hg'⟩
      exact ih _ (process_preserves_retryInv env maxR st jid out hguard hinv) hg'

/-- Witness for C3 at a concrete input: one below-max failure bumps the
counter to 1 and the invariant survives the guarded step. -/
theorem c3_retry_monotonic_witness :
    (findMessage (Process aggOk 3 (some "boom") stPending 10).1 10).map
        (fun m => m.retryCount) = some (msgPending.retryCount + 1) ∧
    retryInv 3 (processTrace aggOk 3 [((10 : Int), some "boom")] stPending) :=
  ⟨c3_retry_monotonic.1 aggOk 3 stPending 10 msgPending campSending custA
      "boom" (by decide) (by decide) (by decide),
   c3_retry_monotonic.2 aggOk 3 [((10 : Int), some "boom")] stPending
      (by
        intro m hm
        fin_cases hm
        exact ⟨by decide, fun h => absurd h (by decide)⟩)
      ⟨by
        intro m hm
        fin_cases hm
        decide, trivial⟩⟩

/-! ## C7: template rendering -/

/-- C7: rendering never errors for a non-nil customer; every placeholder
`\x7bname\x7d` (a nonempty `[a-z_]` run in braces) is replaced by
`fieldLookup`, which maps each of the five known names to the customer's
attribute (an absent attribute is the empty string in the data model) and
every unknown name to the empty string; all other characters are copied
verbatim. -/
theorem c7_render_total_and_substitutes :
    (∀ template c, ∃ s, Render template (some c) = .ok s) ∧
    (∀ c name rest, name ≠ [] → (∀ x ∈ name, isPlaceholderChar x = true) →
      renderChars c ('{' :: (name ++ '}' :: rest)) =
        (fieldLookup c (String.mk name)).data ++ renderChars c rest) ∧
    (∀ c ch rest, ch ≠ '{' →
      renderChars c (ch :: rest) = ch :: renderChars c rest) ∧
    (∀ c, fieldLookup c "first_name" = c.firstName ∧
      fieldLookup c "last_name" = c.lastName ∧
      fieldLookup c "location" = c.location ∧
      fieldLookup c "preferred_product" = c.preferredProduct ∧
      fieldLookup c "phone" = c.phone) ∧
    (∀ c name, name ∉ (["first_name", "last_name", "location",
        "preferred_product", "phone"] : List String) →
      fieldLookup c name = "") := by
  refine ⟨fun template c => ⟨_, rfl⟩,
    fun c name rest hne hall => renderChars_placeholder c name rest hne hall,
    fun c ch rest h => renderChars_literal c ch rest h,
    fun c => ⟨rfl, rfl, rfl, rfl, rfl⟩, ?_⟩
  intro c name hnotin
  unfold fieldLookup
  split_ifs with h1 h2 h3 h4 h5
  · exact absurd (by simp [h1]) hnotin
  · exact absurd (by simp [h2]) hnotin
  · exact absurd (by simp [h3]) hnotin
  · exact absurd (by simp [h4]) hnotin
  · exact absurd (by simp [h5]) hnotin
  · rfl

/-- Witness for C7 at a concrete input: the placeholder `first_name` in front
of the literal tail `" x"` renders to the customer's first name. -/
theorem c7_render_total_and_substitutes_witness :
    renderChars custA ('{' :: ("first_name".data ++ '}' :: " x".data)) =
      (fieldLookup custA (String.mk "first_name".data)).data ++
        renderChars custA " x".data :=
  c7_render_total_and_substitutes.2.1 custA "first_name".data " x".data
    (by decide) (by decide)

/-! ## C8: consumer concurrency clamp -/

/-- C8: for every configured concurrency value, the semaphore capacity built
by `Consume` is at least 1 and at most the hard maximum 5; a value above 5 is
clamped to 5, and a value already within `[1, 5]` is kept unchanged. -/
theorem c8_concurrency_clamped (concurrency : Int) :
    1 ≤ consumeSemaphoreCapacity concurrency ∧
    consumeSemaphoreCapacity concurrency ≤ 5 ∧
    (5 < concurrency → consumeSemaphoreCapacity concurrency = 5) ∧
    (1 ≤ concurrency → concurrency ≤ 5 →
      consumeSemaphoreCapacity concurrency = concurrency) := by
  unfold consumeSemaphoreCapacity
  refine ⟨?_, ?_, ?_, ?_⟩ <;>
    · dsimp only
      split_ifs <;> omega

/-- Witness for C8 at concrete inputs: 100 is clamped to 5, 3 is kept. -/
theorem c8_concurrency_clamped_witness :
    consumeSemaphoreCapacity 100 = 5 ∧ consumeSemaphoreCapacity 3 = 3 :=
  ⟨(c8_concurrency_clamped 100).2.2.1 (by norm_num),
   (c8_concurrency_clamped 3).2.2.2 (by norm_num) (by norm_num)⟩

/-! ## C9: the channel enum -/

/-- C9 counterexample: the claim's channel pair is `sms`/`chat`, but the code
rejects `"chat"` and accepts `"whatsapp"`. -/
theorem c9_counterexample :
    IsValidChannel "chat" = false ∧ IsValidChannel "whatsapp" = true := by
  decide

/-- C9 (amended): a campaign's channel enum has exactly the two values `sms`
and `whatsapp`; channel validation accepts a channel iff it is one of these
two strings. -/
theorem c9_channel_enum (channel : String) :
    IsValidChannel channel = true ↔
      (channel = ChannelSMS ∨ channel = ChannelWhatsApp) := by
  unfold IsValidChannel
  simp

/-- Witness for C9 at a concrete input: `"sms"` is accepted. -/
theorem c9_channel_enum_witness : IsValidChannel "sms" = true :=
  (c9_channel_enum "sms").mpr (Or.inl rfl)

end CampaignBackend
